import Mathlib

/-!
Verification of the NeuroShell sysfs reader (`neuroshell.py`).

The development shallowly embeds the attribute-reading, key=value parsing,
category-aggregation and requirement-checking layer of the program.  File
contents are modelled by a `Store : String → Option String` giving the raw
content of each attribute file (`none` = file absent); Python `dict`s are
modelled by insertion-ordered association lists; Python exceptions are
modelled by `Except`.
-/

namespace NeuroShell

/-- The six ASCII whitespace characters stripped by Python `str.strip()`. -/
def pyIsSpace (c : Char) : Bool :=
  c = ' ' || c = '\t' || c = '\n' || c = '\r' || c = '\x0b' || c = '\x0c'

/-- Drop leading and trailing whitespace from a character list
(Python `str.strip()`). -/
def trimChars (cs : List Char) : List Char :=
  ((cs.dropWhile pyIsSpace).reverse.dropWhile pyIsSpace).reverse

/-- Python `str.strip()`. -/
def strTrim (s : String) : String :=
  String.mk (trimChars s.toList)

/-- Split a character list on a separator character; models Python
`str.split(sep)` (so `""` splits to `[""]`). -/
def splitOnChar (sep : Char) : List Char → List (List Char)
  | [] => [[]]
  | c :: rest =>
    match splitOnChar sep rest with
    | [] => if c = sep then [[], []] else [[c]]
    | h :: t => if c = sep then [] :: h :: t else (c :: h) :: t

/-- Split a character list at the first occurrence of `sep`, models Python
`str.split(sep, 1)` for input known to contain `sep`. -/
def splitFirst (sep : Char) : List Char → List Char × List Char
  | [] => ([], [])
  | c :: rest =>
    if c = sep then ([], rest)
    else
      let p := splitFirst sep rest
      (c :: p.1, p.2)

/-- Evaluate a base-10 digit run in which single underscores may separate
digits (the grammar accepted by Python `int()` after sign handling): a
digit extends the accumulator, an underscore is legal only when followed by
a digit, anything else fails. -/
def digitsValAux : List Char → Nat → Option Nat
  | [], acc => some acc
  | c :: rest, acc =>
    if c.isDigit then digitsValAux rest (acc * 10 + (c.toNat - '0'.toNat))
    else if c = '_' then
      match rest with
      | d :: _ => if d.isDigit then digitsValAux rest acc else none
      | [] => none
    else none

/-- A nonempty digit run (with optional internal underscores) must start
with a digit. -/
def digitsVal (cs : List Char) : Option Nat :=
  match cs with
  | [] => none
  | c :: _ => if c.isDigit then digitsValAux cs 0 else none

/-- Python `int(s)` on a string argument: strip surrounding whitespace,
allow one optional `+` or `-` sign, then a digit run with optional single
underscores between digits; `none` models `ValueError`.  (Restricted to
ASCII digits/whitespace, which is faithful for ASCII input.) -/
def pyIntChars : List Char → Option Int
  | [] => none
  | c :: rest =>
    if c = '-' then (digitsVal rest).map (fun n => -(n : Int))
    else if c = '+' then (digitsVal rest).map (fun n => (n : Int))
    else (digitsVal (c :: rest)).map (fun n => (n : Int))

def pyIntOfString (s : String) : Option Int :=
  pyIntChars (trimChars s.toList)

/-- Python runtime values that occur in this program's dictionaries:
integers, floats and strings.  Floats are modelled as rationals; the only
float produced by the program is `total_bytes / 2^30`, exact in IEEE double
precision whenever `total_bytes < 2^53`. -/
inductive Value where
  | int (n : Int)
  | float (q : ℚ)
  | str (s : String)
deriving DecidableEq

/-- Python exceptions raised by the modelled code. -/
inductive PyErr where
  | valueError
  | typeError
deriving DecidableEq

/-- A Python `dict` with `String` keys: an insertion-ordered association
list with unique keys. -/
def Dict := List (String × Value)

instance : DecidableEq Dict := fun a b => List.hasDecEq a b

/-- Python dict assignment `d[k] = v`: replace in place if the key exists, else append (Python
dict assignment preserves the position of an existing key). -/
def dinsert : Dict → String → Value → Dict
  | [], k, v => [(k, v)]
  | (k', v') :: rest, k, v =>
    if k' = k then (k, v) :: rest else (k', v') :: dinsert rest k v

/-- Python `d.update(other)`: assign each entry of `other` into `d` in order. -/
def dupdate (d other : Dict) : Dict :=
  other.foldl (fun acc kv => dinsert acc kv.1 kv.2) d

/-- Dictionary lookup (first matching key). -/
def dictFind : Dict → String → Option Value
  | [], _ => none
  | (k', v') :: rest, k => if k' = k then some v' else dictFind rest k

/-- Python `d.get(k, dflt)`. -/
def dictGetD (d : Dict) (k : String) (dflt : Value) : Value :=
  (dictFind d k).getD dflt

/-- The parser `parse_key_value`: split the content on newlines; for each stripped
line containing `=`, split on the first `=` into key and raw value, store
the integer conversion of the raw value if `int()` succeeds and the raw
value string unchanged otherwise. -/
def parse_key_value (content : String) : Dict :=
  (splitOnChar '\n' content.toList).foldl
    (fun result lineCs =>
      if (trimChars lineCs).contains '=' then
        match pyIntOfString (String.mk (splitFirst '=' (trimChars lineCs)).2) with
        | some n =>
          dinsert result (String.mk (splitFirst '=' (trimChars lineCs)).1)
            (Value.int n)
        | none =>
          dinsert result (String.mk (splitFirst '=' (trimChars lineCs)).1)
            (Value.str (String.mk (splitFirst '=' (trimChars lineCs)).2))
      else result)
    []

/-- The contents of the sysfs attribute directory: raw file content per
attribute name, `none` when the file is absent. -/
def Store := String → Option String

/-- Reading as the aggregators see it — `read_attr` restricted to the readable/absent cases: the trimmed file
content, or `none` when the file is absent. -/
def readAttrPure (store : Store) (n : String) : Option String :=
  (store n).map strTrim

/-- Python truthiness of an `Optional[str]`: `None` and `""` are falsy.
Collapses a falsy read to `none`, matching every `if x:` guard in the
aggregators. -/
def truthy : Option String → Option String
  | some s => if s = "" then none else some s
  | none => none

/-- Python `int(s)` as an `Except` computation: `ValueError` when the string is
not a valid integer literal. -/
def pyIntE (s : String) : Except PyErr Int :=
  match pyIntOfString s with
  | some n => Except.ok n
  | none => Except.error PyErr.valueError

/-- The `if x: info[field] = int(x)` idiom shared by the aggregators: a
truthy scalar attribute is converted with `int()` (whose `ValueError`
propagates) and stored under `field`; a falsy one is skipped. -/
def intField (o : Option String) (field : String) (info : Dict) :
    Except PyErr Dict :=
  match o with
  | some s => Except.map (fun n => dinsert info field (Value.int n)) (pyIntE s)
  | none => pure info

/-- The body of `get_cpu_info` as a function of its four attribute reads
(each already passed through Python truthiness). -/
def cpuInfoOf (cpu_count cpu_total cpu_info topology : Option String) :
    Except PyErr Dict := do
  let info : Dict := []
  let info ← intField cpu_count "online" info
  let info ← intField cpu_total "total" info
  let info : Dict := match cpu_info with
    | some s => dupdate info (parse_key_value s)
    | none => info
  let info : Dict := match topology with
    | some s => dinsert info "topology" (Value.str s)
    | none => info
  pure info

/-- The CPU aggregation `get_cpu_info`. -/
def get_cpu_info (store : Store) : Except PyErr Dict :=
  cpuInfoOf (truthy (readAttrPure store "cpu_count"))
    (truthy (readAttrPure store "cpu_total"))
    (truthy (readAttrPure store "cpu_info"))
    (truthy (readAttrPure store "cpu_topology"))

/-- The body of `get_memory_info` as a function of its two attribute
reads. -/
def memInfoOf (mem_total mem_info : Option String) : Except PyErr Dict := do
  let info : Dict := []
  let info ← match mem_total with
    | some s =>
      Except.map
        (fun total_bytes =>
          let info := dinsert info "total_bytes" (Value.int total_bytes)
          let info := dinsert info "total_mb" (Value.int (Int.fdiv total_bytes 1048576))
          dinsert info "total_gb" (Value.float (Rat.divInt total_bytes 1073741824)))
        (pyIntE s)
    | none => pure info
  let info : Dict := match mem_info with
    | some s => dupdate info (parse_key_value s)
    | none => info
  pure info

/-- The memory aggregation `get_memory_info`. -/
def get_memory_info (store : Store) : Except PyErr Dict :=
  memInfoOf (truthy (readAttrPure store "mem_total_bytes"))
    (truthy (readAttrPure store "mem_info"))

/-- The body of `get_numa_info` as a function of its two attribute reads. -/
def numaInfoOf (numa_nodes numa_info : Option String) : Except PyErr Dict := do
  let info : Dict := []
  let info ← intField numa_nodes "nodes" info
  let info : Dict := match numa_info with
    | some s => dinsert info "details" (Value.str s)
    | none => info
  pure info

/-- The NUMA aggregation `get_numa_info`. -/
def get_numa_info (store : Store) : Except PyErr Dict :=
  numaInfoOf (truthy (readAttrPure store "numa_nodes"))
    (truthy (readAttrPure store "numa_info"))

/-- The body of `get_gpu_info` as a function of its two attribute reads. -/
def gpuInfoOf (gpu_info gpu_details : Option String) : Except PyErr Dict := do
  let info : Dict := []
  let info : Dict := match gpu_info with
    | some s => dupdate info (parse_key_value s)
    | none => info
  let info : Dict := match gpu_details with
    | some s => dinsert info "details" (Value.str s)
    | none => info
  pure info

/-- The GPU aggregation `get_gpu_info`. -/
def get_gpu_info (store : Store) : Except PyErr Dict :=
  gpuInfoOf (truthy (readAttrPure store "gpu_info"))
    (truthy (readAttrPure store "gpu_details"))

/-- The body of `get_accelerator_info` as a function of its two attribute
reads. -/
def accelInfoOf (accel_count accel_details : Option String) : Except PyErr Dict := do
  let info : Dict := []
  let info ← intField accel_count "count" info
  let info : Dict := match accel_details with
    | some s => dinsert info "details" (Value.str s)
    | none => info
  pure info

/-- The accelerator aggregation `get_accelerator_info`. -/
def get_accelerator_info (store : Store) : Except PyErr Dict :=
  accelInfoOf (truthy (readAttrPure store "accelerator_count"))
    (truthy (readAttrPure store "accelerator_details"))

/-- The summary operation `get_system_summary`: `read_attr('system_summary') or "Summary not
available"` — Python `or` falls through to the fallback on `None` and on
the empty string. -/
def get_system_summary (store : Store) : String :=
  match truthy (readAttrPure store "system_summary") with
  | some s => s
  | none => "Summary not available"

/-- The get-everything operation `get_all_info`: the five category aggregations, evaluated in the order
of the dict literal; an exception in any of them propagates. -/
def get_all_info (store : Store) : Except PyErr (List (String × Dict)) := do
  let cpu ← get_cpu_info store
  let memory ← get_memory_info store
  let numa ← get_numa_info store
  let gpu ← get_gpu_info store
  let accel ← get_accelerator_info store
  pure [("cpu", cpu), ("memory", memory), ("numa", numa), ("gpu", gpu),
        ("accelerator", accel)]

/-- Python `>=` on the value types occurring here: defined between
numbers (with int/float promotion) and between strings; any other mix
raises `TypeError`, modelled as `none`. -/
def pyGE : Value → Value → Option Bool
  | Value.int a, Value.int b => some (decide (a ≥ b))
  | Value.int a, Value.float b => some (decide ((a : ℚ) ≥ b))
  | Value.float a, Value.int b => some (decide (a ≥ (b : ℚ)))
  | Value.float a, Value.float b => some (decide (a ≥ b))
  | Value.str a, Value.str b => some (!(decide (a < b)))
  | _, _ => none

/-- Comparison `pyGE` as an `Except` computation raising `TypeError` on an
unsupported comparison. -/
def pyGEE (v w : Value) : Except PyErr Bool :=
  match pyGE v w with
  | some b => Except.ok b
  | none => Except.error PyErr.typeError

/-- The requirement check `check_requirements`: three fresh aggregations, then the three
`.get(field, 0) >= threshold` comparisons (evaluated in dict-literal
order) and the conjunction of all of them.  The report printed to stdout
is not modelled; it cannot affect the returned verdict. -/
def check_requirements (store : Store) (min_cpus : Int) (min_memory_gb : ℚ)
    (min_gpus : Int) : Except PyErr Bool := do
  let cpu_info ← get_cpu_info store
  let mem_info ← get_memory_info store
  let gpu_info ← get_gpu_info store
  let c1 ← pyGEE (dictGetD cpu_info "online" (Value.int 0)) (Value.int min_cpus)
  let c2 ← pyGEE (dictGetD mem_info "total_gb" (Value.int 0)) (Value.float min_memory_gb)
  let c3 ← pyGEE (dictGetD gpu_info "total" (Value.int 0)) (Value.int min_gpus)
  pure (c1 && c2 && c3)

/-- The four ways the underlying file read in `read_attr` can end. -/
inductive ReadOutcome where
  | found (content : String)
  | missing
  | denied
  | failure (msg : String)

/-- The attribute reader `read_attr` with its exception handlers: the result pairs the returned
`Optional[str]` with the lines written to stderr; an I/O error other than
`FileNotFoundError`/`PermissionError` has no handler and propagates. -/
def read_attr (fs : String → ReadOutcome) (attr : String) :
    Except String (Option String × List String) :=
  match fs attr with
  | ReadOutcome.found c => Except.ok (some (strTrim c), [])
  | ReadOutcome.missing => Except.ok (none, [])
  | ReadOutcome.denied => Except.ok (none, ["Permission denied reading " ++ attr])
  | ReadOutcome.failure m => Except.error m

/-- Does a path string start with `/` (pathlib: an absolute right operand
of `/` replaces the left operand entirely)? -/
def isAbsolute (name : String) : Bool :=
  match name.toList with
  | [] => false
  | c :: _ => c == '/'

/-- The path components of a name, pathlib-style: split on `/`, dropping
empty components and single dots (`..` is kept). -/
def splitPathComponents (name : String) : List String :=
  (splitOnChar '/' name.toList).filterMap (fun cs =>
    let comp := String.mk cs
    if comp = "" ∨ comp = "." then none else some comp)

/-- Pathlib join `base / name`: component concatenation, except that an
absolute `name` replaces `base`. -/
def joinPath (base : List String) (name : String) : List String :=
  if isAbsolute name then splitPathComponents name else base ++ splitPathComponents name

/-- Resolution of `..` components as the kernel does on open (symlinks
aside); `..` at the root stays at the root. -/
def resolvePath (comps : List String) : List String :=
  comps.foldl (fun acc c => if c = ".." then acc.dropLast else acc ++ [c]) []

/-- The fixed base `NEUROSHELL_PATH = /sys/kernel/neuroshell` as components. -/
def neuroshellPath : List String := ["sys", "kernel", "neuroshell"]

/-- Is `base` an initial segment of `p`, i.e. does `p` lie at or below the
`base` directory? -/
def underBase : List String → List String → Bool
  | [], _ => true
  | _ :: _, [] => false
  | b :: bs, c :: cs => b == c && underBase bs cs

/-- The path opened by `read_attr` for a given attribute name:
`NEUROSHELL_PATH / attribute`, with no rejection or sanitization of the
name. -/
def attrPath (attr : String) : List String :=
  joinPath neuroshellPath attr

/-- Modelled from the spec: the regex `^-?[0-9]+$` of the testable
property for `parse`, matched against the whole value string — an
optional leading `-` followed by one or more ASCII digits, nothing else.
This is the spec-side acceptance condition, to be compared with the
code's `pyIntOfString`. -/
def specIntChars : List Char → Bool
  | [] => false
  | c :: rest =>
    if c = '-' then !rest.isEmpty && rest.all Char.isDigit
    else (c :: rest).all Char.isDigit

def specIntRe (v : String) : Bool :=
  specIntChars v.toList

/-- Does an optional truthy attribute value convert cleanly with `int()`
(vacuously yes when the attribute is falsy)? -/
def optIntOk : Option String → Bool
  | some s => (pyIntOfString s).isSome
  | none => true

/-- Is the named scalar attribute of a store absent/blank or a clean
integer? -/
def scalarOk (store : Store) (n : String) : Bool :=
  optIntOk (truthy (readAttrPure store n))

/-- The store with one attribute removed. -/
def storeErase (store : Store) (a : String) : Store :=
  fun n => if n = a then none else store n

/-- A store in which every attribute file is absent. -/
def emptyStore : Store := fun _ => none

/-- Store with a malformed `cpu_count` scalar next to a well-formed
`cpu_info` blob. -/
def badCpuStore : Store := fun n =>
  if n = "cpu_count" then some "abc"
  else if n = "cpu_info" then some "flags=sse" else none

/-- Store carrying only a memory size of 16 GiB. -/
def memStore : Store := fun n =>
  if n = "mem_total_bytes" then some "17179869184" else none

/-- Store whose `system_summary` file exists but holds only whitespace. -/
def blankSummaryStore : Store := fun n =>
  if n = "system_summary" then some "   " else none

/-- Store exercising the CPU and GPU merge orders: scalar counts, blobs
that collide with them, and raw detail/topology attributes. -/
def mergeStore : Store := fun n =>
  if n = "cpu_count" then some "2"
  else if n = "cpu_info" then some "online=8\ntotal=16"
  else if n = "cpu_topology" then some "topo"
  else if n = "gpu_info" then some "total=2\ndetails=x"
  else if n = "gpu_details" then some "D" else none

/-- The CPU record produced by `mergeStore`. -/
def mergeCpuDict : Dict :=
  [("online", Value.int 8), ("total", Value.int 16), ("topology", Value.str "topo")]

/-- The GPU record produced by `mergeStore`. -/
def mergeGpuDict : Dict :=
  [("total", Value.int 2), ("details", Value.str "D")]

/-- A file-outcome environment where attribute `x` is readable. -/
def okFs : String → ReadOutcome := fun n =>
  if n = "x" then ReadOutcome.found " hi " else ReadOutcome.missing

/-- Store with a nonempty summary attribute. -/
def sumStore : Store := fun n =>
  if n = "system_summary" then some "All good" else none

/-- Did the computation finish without raising? -/
def exceptOk {ε α : Type} : Except ε α → Bool
  | Except.ok _ => true
  | Except.error _ => false

section Lemmas

theorem ok_bind {ε α β : Type} (a : α) (f : α → Except ε β) :
    (Except.ok a : Except ε α) >>= f = f a := rfl

theorem error_bind {ε α β : Type} (e : ε) (f : α → Except ε β) :
    (Except.error e : Except ε α) >>= f = Except.error e := rfl

theorem map_ok {ε α β : Type} (f : α → β) (a : α) :
    Except.map f (Except.ok a : Except ε α) = Except.ok (f a) := rfl

theorem map_error {ε α β : Type} (f : α → β) (e : ε) :
    Except.map f (Except.error e : Except ε α) = Except.error e := rfl

theorem pure_def {ε α : Type} (a : α) :
    (pure a : Except ε α) = Except.ok a := rfl

theorem strMk_toList (s : String) : String.mk s.toList = s := by
  cases s
  rfl

theorem toList_mk (cs : List Char) : (String.mk cs).toList = cs := rfl

theorem toList_append (a b : String) : (a ++ b).toList = a.toList ++ b.toList := by
  cases a
  cases b
  rfl

theorem dropWhile_of_all_false {p : Char → Bool} :
    ∀ cs : List Char, (∀ c ∈ cs, p c = false) → cs.dropWhile p = cs := by
  intro cs h
  cases cs with
  | nil => rfl
  | cons c t =>
    simp [List.dropWhile, h c (List.mem_cons_self c t)]

theorem trimChars_of_no_space (cs : List Char)
    (h : ∀ c ∈ cs, pyIsSpace c = false) : trimChars cs = cs := by
  unfold trimChars
  rw [dropWhile_of_all_false cs h]
  rw [dropWhile_of_all_false cs.reverse (fun c hc => h c (List.mem_reverse.mp hc))]
  exact List.reverse_reverse cs

theorem splitOnChar_no_sep (sep : Char) :
    ∀ cs : List Char, sep ∉ cs → splitOnChar sep cs = [cs] := by
  intro cs
  induction cs with
  | nil => intro _; rfl
  | cons c t ih =>
    intro h
    have hc : ¬ c = sep := fun he => h (he ▸ List.mem_cons_self c t)
    have ht : sep ∉ t := fun hm => h (List.mem_cons_of_mem c hm)
    rw [splitOnChar, ih ht]
    simp [hc]

theorem splitFirst_app (vs : List Char) :
    ∀ ks : List Char, '=' ∉ ks →
      splitFirst '=' (ks ++ '=' :: vs) = (ks, vs) := by
  intro ks
  induction ks with
  | nil => intro _; simp [splitFirst]
  | cons c t ih =>
    intro h
    have hc : ¬ c = '=' := fun he => h (he ▸ List.mem_cons_self c t)
    have ht : '=' ∉ t := fun hm => h (List.mem_cons_of_mem c hm)
    rw [List.cons_append, splitFirst]
    simp [hc, ih ht]

end Lemmas

section ClaimC4

/-- C4: `read_attr` returns the trimmed contents on success, absent when
the file does not exist, absent plus a stderr diagnostic when the file is
unreadable, and propagates any other I/O error. -/
theorem read_attr_spec (fs : String → ReadOutcome) (a : String) :
    (∀ c, fs a = ReadOutcome.found c →
      read_attr fs a = Except.ok (some (strTrim c), [])) ∧
    (fs a = ReadOutcome.missing → read_attr fs a = Except.ok (none, [])) ∧
    (fs a = ReadOutcome.denied →
      read_attr fs a = Except.ok (none, ["Permission denied reading " ++ a])) ∧
    (∀ m, fs a = ReadOutcome.failure m → read_attr fs a = Except.error m) := by
  refine ⟨fun c hc => ?_, fun h => ?_, fun h => ?_, fun m hm => ?_⟩
  · rw [read_attr, hc]
  · rw [read_attr, h]
  · rw [read_attr, h]
  · rw [read_attr, hm]

/-- Witness for C4 at a concrete environment: attribute `x` reads
`" hi "`, so `read_attr` returns the stripped text with no diagnostics. -/
theorem read_attr_spec_witness :
    read_attr okFs "x" = Except.ok (some "hi", []) :=
  (read_attr_spec okFs "x").1 " hi " rfl

end ClaimC4

section ClaimC8

/-- C8: with every attribute absent, the "get everything" operation
returns, without error, the record keyed by the five category names, each
category record empty. -/
theorem get_all_info_empty (store : Store) (h : ∀ n, store n = none) :
    get_all_info store =
      Except.ok [("cpu", []), ("memory", []), ("numa", []), ("gpu", []),
                 ("accelerator", [])] := by
  have he : store = emptyStore := funext fun n => h n
  rw [he]
  rfl

/-- Witness for C8: the empty store. -/
theorem get_all_info_empty_witness :
    get_all_info emptyStore =
      Except.ok [("cpu", []), ("memory", []), ("numa", []), ("gpu", []),
                 ("accelerator", [])] :=
  get_all_info_empty emptyStore (fun _ => rfl)

end ClaimC8

section ClaimC9

theorem splitPathComponents_no_sep (name : String) (h : '/' ∉ name.toList) :
    splitPathComponents name = if name = "" ∨ name = "." then [] else [name] := by
  rw [splitPathComponents, splitOnChar_no_sep '/' name.toList h]
  simp only [List.filterMap_cons, List.filterMap_nil, strMk_toList]
  by_cases h0 : name = "" ∨ name = "."
  · rw [if_pos h0, if_pos h0]
  · rw [if_neg h0, if_neg h0]

/-- C9 counterexample: the attribute name `../secret` contains a path
separator, is neither rejected nor sanitized, and the file it opens
resolves outside the fixed base directory. -/
theorem read_attr_traversal_counterexample :
    ('/' ∈ ("../secret").toList) ∧
      underBase neuroshellPath (resolvePath (attrPath "../secret")) = false := by
  decide

/-- C9 amended: `read_attr` applies no rejection or sanitization to the
attribute name; only a name free of path separators (and distinct from
`..`) is guaranteed to access a path inside the fixed base directory. -/
theorem attrPath_no_sep_under_base (name : String) (h1 : '/' ∉ name.toList)
    (h2 : name ≠ "..") :
    underBase neuroshellPath (resolvePath (attrPath name)) = true := by
  have habs : isAbsolute name = false := by
    rw [isAbsolute]
    cases hv : name.toList with
    | nil => rfl
    | cons c t =>
      have hc : ¬ c = '/' := fun he => h1 (hv ▸ (he ▸ List.mem_cons_self c t))
      simp [hc]
  rw [attrPath, joinPath, habs]
  simp only [Bool.false_eq_true, if_false]
  rw [splitPathComponents_no_sep name h1]
  by_cases h0 : name = "" ∨ name = "."
  · rw [if_pos h0]
    decide
  · rw [if_neg h0]
    rw [resolvePath, List.foldl_append]
    have hbase :
        List.foldl (fun acc c => if c = ".." then acc.dropLast else acc ++ [c])
          [] neuroshellPath = neuroshellPath := rfl
    rw [hbase, List.foldl_cons, List.foldl_nil, if_neg h2]
    simp [neuroshellPath, underBase]

/-- Witness for the amended C9: the ordinary attribute name `cpu_count`
stays inside the base directory. -/
theorem attrPath_no_sep_under_base_witness :
    underBase neuroshellPath (resolvePath (attrPath "cpu_count")) = true :=
  attrPath_no_sep_under_base "cpu_count" (by decide) (by decide)

end ClaimC9

section ClaimC6

/-- C6 counterexample: a `system_summary` file that exists but holds only
whitespace is present, yet the summary operation returns the fallback
string rather than the attribute's text. -/
theorem get_system_summary_counterexample :
    blankSummaryStore "system_summary" = some "   " ∧
    get_system_summary blankSummaryStore = "Summary not available" ∧
    "Summary not available" ≠ "   " ∧ "Summary not available" ≠ "" := by
  refine ⟨rfl, rfl, by decide, by decide⟩

/-- C6 amended: the summary operation returns the trimmed attribute text
when it is nonempty, and the fixed fallback string both when the attribute
is absent and when its content strips to the empty string. -/
theorem get_system_summary_spec (store : Store) :
    (∀ s, truthy (readAttrPure store "system_summary") = some s →
      get_system_summary store = s) ∧
    (store "system_summary" = none →
      get_system_summary store = "Summary not available") ∧
    (∀ s, store "system_summary" = some s → strTrim s = "" →
      get_system_summary store = "Summary not available") := by
  refine ⟨fun s hs => ?_, fun h => ?_, fun s hs ht => ?_⟩
  · rw [get_system_summary, hs]
  · rw [get_system_summary, readAttrPure, h]
    rfl
  · rw [get_system_summary, readAttrPure, hs]
    simp [truthy, ht]

/-- Witness for the amended C6: a present, nonempty summary is returned
as-is. -/
theorem get_system_summary_spec_witness :
    get_system_summary sumStore = "All good" :=
  (get_system_summary_spec sumStore).1 "All good" rfl

end ClaimC6

section ClaimC10

/-- Erasing an attribute whose content strips to `""` does not change any
truthiness-guarded read. -/
theorem truthy_storeErase (store : Store) (a s : String)
    (ha : store a = some s) (hs : strTrim s = "") :
    ∀ n, truthy (readAttrPure (storeErase store a) n) =
      truthy (readAttrPure store n) := by
  intro n
  by_cases hn : n = a
  · subst hn
    rw [readAttrPure, readAttrPure, storeErase]
    simp [ha, hs, truthy]
  · rw [readAttrPure, readAttrPure, storeErase]
    simp [hn]

/-- C10: an attribute whose file exists but whose content strips to the
empty string behaves exactly like an absent attribute in every category
aggregation and in the summary operation, the summary returning the
fallback text in that situation. -/
theorem blank_attr_like_absent (store : Store) (a s : String)
    (ha : store a = some s) (hs : strTrim s = "") :
    get_cpu_info (storeErase store a) = get_cpu_info store ∧
    get_memory_info (storeErase store a) = get_memory_info store ∧
    get_numa_info (storeErase store a) = get_numa_info store ∧
    get_gpu_info (storeErase store a) = get_gpu_info store ∧
    get_accelerator_info (storeErase store a) = get_accelerator_info store ∧
    get_system_summary (storeErase store a) = get_system_summary store ∧
    (a = "system_summary" →
      get_system_summary store = "Summary not available") := by
  have htr := truthy_storeErase store a s ha hs
  refine ⟨?_, ?_, ?_, ?_, ?_, ?_, fun hsum => ?_⟩
  · rw [get_cpu_info, get_cpu_info]
    simp only [htr]
  · rw [get_memory_info, get_memory_info]
    simp only [htr]
  · rw [get_numa_info, get_numa_info]
    simp only [htr]
  · rw [get_gpu_info, get_gpu_info]
    simp only [htr]
  · rw [get_accelerator_info, get_accelerator_info]
    simp only [htr]
  · rw [get_system_summary, get_system_summary]
    simp only [htr]
  · subst hsum
    rw [get_system_summary, readAttrPure, ha]
    simp [truthy, hs]

/-- Witness for C10 at a whitespace-only `system_summary` file. -/
theorem blank_attr_like_absent_witness :
    get_cpu_info (storeErase blankSummaryStore "system_summary") =
      get_cpu_info blankSummaryStore ∧
    get_memory_info (storeErase blankSummaryStore "system_summary") =
      get_memory_info blankSummaryStore ∧
    get_numa_info (storeErase blankSummaryStore "system_summary") =
      get_numa_info blankSummaryStore ∧
    get_gpu_info (storeErase blankSummaryStore "system_summary") =
      get_gpu_info blankSummaryStore ∧
    get_accelerator_info (storeErase blankSummaryStore "system_summary") =
      get_accelerator_info blankSummaryStore ∧
    get_system_summary (storeErase blankSummaryStore "system_summary") =
      get_system_summary blankSummaryStore ∧
    (("system_summary" : String) = "system_summary" →
      get_system_summary blankSummaryStore = "Summary not available") :=
  blank_attr_like_absent blankSummaryStore "system_summary" "   " rfl rfl

end ClaimC10

section ClaimC5

/-- C5: reading `mem_total_bytes = b` yields `total_bytes = b`,
`total_mb = b` floor-divided by `1048576`, and `total_gb = b / 1073741824`
exactly; in particular `b = 17179869184` gives `total_mb = 16384` and
`total_gb = 16`. -/
theorem get_memory_info_derivations (store : Store) (t : String) (b : Int)
    (h1 : truthy (readAttrPure store "mem_total_bytes") = some t)
    (h2 : pyIntOfString t = some b)
    (h3 : truthy (readAttrPure store "mem_info") = none) :
    get_memory_info store =
      Except.ok [("total_bytes", Value.int b),
        ("total_mb", Value.int (Int.fdiv b 1048576)),
        ("total_gb", Value.float ((b : ℚ) / 1073741824))] ∧
    (b = 17179869184 →
      Int.fdiv b 1048576 = 16384 ∧ ((b : ℚ) / 1073741824 : ℚ) = 16) := by
  constructor
  · rw [get_memory_info, h1, h3, memInfoOf]
    simp only [pyIntE, h2, map_ok, ok_bind, pure_def]
    have hq : Rat.divInt b 1073741824 = ((b : ℚ) / 1073741824 : ℚ) := by
      rw [Rat.divInt_eq_div]
      norm_num
    rw [hq]
    simp [dinsert]
  · intro hb
    subst hb
    refine ⟨by decide, ?_⟩
    norm_num

/-- Witness for C5 at a 16 GiB store. -/
theorem get_memory_info_derivations_witness :
    get_memory_info memStore =
      Except.ok [("total_bytes", Value.int 17179869184),
        ("total_mb", Value.int (Int.fdiv 17179869184 1048576)),
        ("total_gb", Value.float (((17179869184 : Int) : ℚ) / 1073741824))] ∧
    (Int.fdiv 17179869184 1048576 = 16384 ∧
      ((((17179869184 : Int) : ℚ)) / 1073741824 : ℚ) = 16) :=
  ⟨(get_memory_info_derivations memStore "17179869184" 17179869184 rfl rfl rfl).1,
   (get_memory_info_derivations memStore "17179869184" 17179869184 rfl rfl rfl).2 rfl⟩

end ClaimC5

section ClaimC2

/-- C2: in `check_requirements`, each of the three fields compared
(`online`, `total_gb`, `total`) defaults to `0` in its comparison when
missing from its record; with the GPU `total` field absent a minimum of
one GPU fails; and the returned verdict is the conjunction of the three
per-dimension comparisons. -/
theorem check_requirements_spec (store : Store) (minC minG : Int) (minM : ℚ)
    (c m g : Dict) (b1 b2 b3 : Bool)
    (hc : get_cpu_info store = Except.ok c)
    (hm : get_memory_info store = Except.ok m)
    (hg : get_gpu_info store = Except.ok g)
    (h1 : pyGE (dictGetD c "online" (Value.int 0)) (Value.int minC) = some b1)
    (h2 : pyGE (dictGetD m "total_gb" (Value.int 0)) (Value.float minM) = some b2)
    (h3 : pyGE (dictGetD g "total" (Value.int 0)) (Value.int minG) = some b3) :
    check_requirements store minC minM minG = Except.ok (b1 && b2 && b3) ∧
    (dictFind c "online" = none → b1 = decide ((0 : Int) ≥ minC)) ∧
    (dictFind m "total_gb" = none → b2 = decide ((0 : ℚ) ≥ minM)) ∧
    (dictFind g "total" = none → b3 = decide ((0 : Int) ≥ minG)) ∧
    (dictFind g "total" = none → minG = 1 → b3 = false) := by
  refine ⟨?_, fun hf => ?_, fun hf => ?_, fun hf => ?_, fun hf hg1 => ?_⟩
  · rw [check_requirements, hc, hm, hg]
    simp only [ok_bind, pyGEE, h1, h2, h3, pure_def]
  · rw [dictGetD, hf] at h1
    simp [pyGE] at h1
    exact h1.symm
  · rw [dictGetD, hf] at h2
    simp [pyGE] at h2
    exact h2.symm
  · rw [dictGetD, hf] at h3
    simp [pyGE] at h3
    exact h3.symm
  · rw [dictGetD, hf] at h3
    simp [pyGE] at h3
    subst hg1
    rw [← h3]
    decide

/-- Witness for C2: the empty store against the CLI default thresholds
(4 CPUs, 8 GB, 1 GPU) fails every dimension and overall. -/
theorem check_requirements_spec_witness :
    check_requirements emptyStore 4 8 1 = Except.ok (false && false && false) ∧
    (dictFind [] "online" = none → false = decide ((0 : Int) ≥ 4)) ∧
    (dictFind [] "total_gb" = none → false = decide ((0 : ℚ) ≥ 8)) ∧
    (dictFind [] "total" = none → false = decide ((0 : Int) ≥ 1)) ∧
    (dictFind [] "total" = none → (1 : Int) = 1 → false = false) :=
  check_requirements_spec emptyStore 4 1 8 [] [] [] false false false
    rfl rfl rfl (by decide) (by decide) (by decide)

end ClaimC2

section DictLemmas

/-- Keys of a dictionary are pairwise distinct. -/
def keysNodup (d : Dict) : Prop := (d.map Prod.fst).Nodup

theorem dictFind_dinsert_self (d : Dict) (k : String) (v : Value) :
    dictFind (dinsert d k v) k = some v := by
  induction d with
  | nil => simp [dinsert, dictFind]
  | cons kv rest ih =>
    by_cases hk : kv.1 = k
    · rw [← hk]
      simp [dinsert, dictFind, hk]
    · simp [dinsert, dictFind, hk, ih]

theorem dictFind_dinsert_ne (d : Dict) (k k' : String) (v : Value)
    (h : k' ≠ k) : dictFind (dinsert d k v) k' = dictFind d k' := by
  induction d with
  | nil =>
    show dictFind [(k, v)] k' = dictFind [] k'
    simp only [dictFind]
    rw [if_neg (fun he : k = k' => h he.symm)]
  | cons kv rest ih =>
    by_cases hk : kv.1 = k
    · rw [dinsert]
      simp only [hk, if_true, reduceIte]
      rw [dictFind, dictFind, if_neg (fun he : k = k' => h he.symm), hk,
        if_neg (fun he : k = k' => h he.symm)]
    · rw [dinsert]
      simp only [hk, reduceIte]
      by_cases hq : kv.1 = k'
      · rw [dictFind, if_pos hq, dictFind, if_pos hq]
      · rw [dictFind, if_neg hq, dictFind, if_neg hq, ih]

theorem keys_dinsert (d : Dict) (k : String) (v : Value) :
    (dinsert d k v).map Prod.fst =
      if k ∈ d.map Prod.fst then d.map Prod.fst
      else d.map Prod.fst ++ [k] := by
  induction d with
  | nil => simp [dinsert]
  | cons kv rest ih =>
    by_cases hk : kv.1 = k
    · rw [dinsert, if_pos hk, List.map_cons, List.map_cons, hk]
      rw [if_pos (List.mem_cons_self k (rest.map Prod.fst))]
    · rw [dinsert, if_neg hk, List.map_cons, List.map_cons, ih]
      by_cases hm : k ∈ rest.map Prod.fst
      · rw [if_pos hm, if_pos (List.mem_cons_of_mem kv.1 hm)]
      · rw [if_neg hm, if_neg (fun hmem => ?_), List.cons_append]
        rcases List.mem_cons.mp hmem with h' | h'
        · exact hk h'.symm
        · exact hm h'

theorem keysNodup_dinsert (d : Dict) (k : String) (v : Value)
    (h : keysNodup d) : keysNodup (dinsert d k v) := by
  rw [keysNodup, keys_dinsert]
  by_cases hm : k ∈ d.map Prod.fst
  · rw [if_pos hm]
    exact h
  · rw [if_neg hm, List.nodup_append]
    refine ⟨h, List.nodup_singleton k, fun x hx hx2 => ?_⟩
    rw [List.mem_singleton] at hx2
    subst hx2
    exact hm hx

theorem dictFind_dupdate_not_mem (o : Dict) :
    ∀ d : Dict, ∀ k : String, k ∉ o.map Prod.fst →
      dictFind (dupdate d o) k = dictFind d k := by
  induction o with
  | nil => intro d k _; rfl
  | cons kv rest ih =>
    intro d k hk
    have hk1 : kv.1 ≠ k :=
      fun he => hk (he ▸ List.mem_cons_self kv.1 (rest.map Prod.fst))
    have hk2 : k ∉ rest.map Prod.fst :=
      fun hm => hk (List.mem_cons_of_mem kv.1 hm)
    rw [dupdate, List.foldl_cons]
    rw [show List.foldl (fun acc kv => dinsert acc kv.1 kv.2)
      (dinsert d kv.1 kv.2) rest = dupdate (dinsert d kv.1 kv.2) rest from rfl]
    rw [ih (dinsert d kv.1 kv.2) k hk2]
    exact dictFind_dinsert_ne d kv.1 k kv.2 (fun he => hk1 he.symm)

theorem dictFind_dupdate_of_mem (o : Dict) :
    ∀ d : Dict, ∀ k : String, ∀ v : Value, keysNodup o →
      dictFind o k = some v → dictFind (dupdate d o) k = some v := by
  induction o with
  | nil => intro d k v _ hf; simp [dictFind] at hf
  | cons kv rest ih =>
    intro d k v hn hf
    rw [keysNodup, List.map_cons, List.nodup_cons] at hn
    rw [dupdate, List.foldl_cons]
    rw [show List.foldl (fun acc kv => dinsert acc kv.1 kv.2)
      (dinsert d kv.1 kv.2) rest = dupdate (dinsert d kv.1 kv.2) rest from rfl]
    by_cases hk : kv.1 = k
    · rw [dictFind, if_pos hk] at hf
      rw [dictFind_dupdate_not_mem rest (dinsert d kv.1 kv.2) k (hk ▸ hn.1),
        hk, dictFind_dinsert_self]
      exact hf
    · rw [dictFind, if_neg hk] at hf
      exact ih (dinsert d kv.1 kv.2) k v hn.2 hf

theorem keysNodup_parse_step (lines : List (List Char)) :
    ∀ acc : Dict, keysNodup acc →
      keysNodup (lines.foldl
        (fun result lineCs =>
          if (trimChars lineCs).contains '=' then
            match pyIntOfString (String.mk (splitFirst '=' (trimChars lineCs)).2) with
            | some n =>
              dinsert result (String.mk (splitFirst '=' (trimChars lineCs)).1)
                (Value.int n)
            | none =>
              dinsert result (String.mk (splitFirst '=' (trimChars lineCs)).1)
                (Value.str (String.mk (splitFirst '=' (trimChars lineCs)).2))
          else result)
        acc) := by
  induction lines with
  | nil => intro acc h; exact h
  | cons l rest ih =>
    intro acc h
    rw [List.foldl_cons]
    apply ih
    by_cases hc : (trimChars l).contains '=' = true
    · simp only [hc, if_true, reduceIte]
      cases pyIntOfString (String.mk (splitFirst '=' (trimChars l)).2) with
      | some n => exact keysNodup_dinsert _ _ _ h
      | none => exact keysNodup_dinsert _ _ _ h
    · simp only [Bool.not_eq_true] at hc
      simp only [hc, Bool.false_eq_true, if_false]
      exact h

theorem keysNodup_parse (content : String) :
    keysNodup (parse_key_value content) := by
  rw [parse_key_value]
  exact keysNodup_parse_step _ [] (by simp [keysNodup])

end DictLemmas

section DigitLemmas

theorem isDigit_not_pyIsSpace (c : Char) (h : c.isDigit = true) :
    pyIsSpace c = false := by
  by_contra hq
  rw [Bool.not_eq_false, pyIsSpace] at hq
  simp only [Bool.or_eq_true, decide_eq_true_eq] at hq
  rcases hq with ((((h1 | h1) | h1) | h1) | h1) | h1 <;>
    (subst h1; exact absurd h (by decide))

theorem digitsValAux_isSome :
    ∀ cs : List Char, (∀ c ∈ cs, c.isDigit = true) →
      ∀ acc : Nat, ∃ n, digitsValAux cs acc = some n := by
  intro cs
  induction cs with
  | nil => intro _ acc; exact ⟨acc, rfl⟩
  | cons c t ih =>
    intro h acc
    simp only [digitsValAux, h c (List.mem_cons_self c t), if_true, reduceIte]
    exact ih (fun x hx => h x (List.mem_cons_of_mem c hx)) _

theorem digitsVal_isSome (cs : List Char) (hne : cs ≠ [])
    (h : ∀ c ∈ cs, c.isDigit = true) : ∃ n, digitsVal cs = some n := by
  cases cs with
  | nil => exact absurd rfl hne
  | cons c t =>
    rw [digitsVal]
    simp only [h c (List.mem_cons_self c t), if_true, reduceIte]
    exact digitsValAux_isSome (c :: t) h 0

theorem specIntRe_pyInt (v : String) (h : specIntRe v = true) :
    ∃ n, pyIntOfString v = some n := by
  rw [specIntRe] at h
  rw [pyIntOfString]
  cases hv : v.toList with
  | nil => rw [hv, specIntChars] at h; exact absurd h (by decide)
  | cons c t =>
    rw [hv, specIntChars] at h
    by_cases hc : c = '-'
    · rw [if_pos hc] at h
      simp only [Bool.and_eq_true, Bool.not_eq_true', List.all_eq_true] at h
      have hne : t ≠ [] := by
        intro he
        rw [he] at h
        exact absurd h.1 (by decide)
      have hall : ∀ x ∈ c :: t, pyIsSpace x = false := by
        intro x hx
        rcases List.mem_cons.mp hx with h' | h'
        · rw [h', hc]
          decide
        · exact isDigit_not_pyIsSpace x (h.2 x h')
      rw [trimChars_of_no_space (c :: t) hall, pyIntChars, if_pos hc]
      obtain ⟨n, hn⟩ := digitsVal_isSome t hne h.2
      exact ⟨-(n : Int), by rw [hn]; rfl⟩
    · rw [if_neg hc] at h
      simp only [List.all_eq_true] at h
      have hall : ∀ x ∈ c :: t, pyIsSpace x = false :=
        fun x hx => isDigit_not_pyIsSpace x (h x hx)
      rw [trimChars_of_no_space (c :: t) hall, pyIntChars, if_neg hc]
      have hcp : ¬ c = '+' := by
        intro he
        have hd := h c (List.mem_cons_self c t)
        rw [he] at hd
        exact absurd hd (by decide)
      rw [if_neg hcp]
      obtain ⟨n, hn⟩ := digitsVal_isSome (c :: t) (by simp) h
      exact ⟨(n : Int), by rw [hn]; rfl⟩

end DigitLemmas

section ClaimC1

/-- C1 counterexample: in `k= 5` the value `" 5"` does not match
`^-?[0-9]+$`, yet the parser stores the integer `5` (Python `int()`
strips whitespace); and in `k= a` the stored string is `" a"`, not the
trimmed `"a"`. -/
theorem parse_key_value_counterexample :
    dictFind (parse_key_value "k= 5") "k" = some (Value.int 5) ∧
    specIntRe " 5" = false ∧
    dictFind (parse_key_value "k= a") "k" = some (Value.str " a") := by
  refine ⟨by decide, by decide, by decide⟩

/-- C1 amended: for a line `k=v` (no `=` in `k`, no newline in either
part, no surrounding whitespace), the parser maps `k` to the base-10
integer value of `v` exactly when Python `int()` accepts `v` — optional
surrounding whitespace, an optional `+` or `-` sign, digits with optional
single underscores — and otherwise to the string `v` exactly as it
appears after the first `=`, not re-trimmed; every value matching
`^-?[0-9]+$` is accepted by `int()`. -/
theorem parse_single_line (k v : String)
    (hk : '=' ∉ k.toList) (hkn : '\n' ∉ k.toList) (hvn : '\n' ∉ v.toList)
    (ht : strTrim (k ++ "=" ++ v) = k ++ "=" ++ v) :
    dictFind (parse_key_value (k ++ "=" ++ v)) k =
      some (match pyIntOfString v with
            | some n => Value.int n
            | none => Value.str v) ∧
    (specIntRe v = true → ∃ n, pyIntOfString v = some n) := by
  refine ⟨?_, specIntRe_pyInt v⟩
  have hlist : (k ++ "=" ++ v).toList = k.toList ++ '=' :: v.toList := by
    rw [toList_append, toList_append]
    simp [List.append_assoc]
  have hnl : '\n' ∉ (k ++ "=" ++ v).toList := by
    rw [hlist]
    intro hm
    rcases List.mem_append.mp hm with h | h
    · exact hkn h
    · rcases List.mem_cons.mp h with h | h
      · exact absurd h (by decide)
      · exact hvn h
  have htrim : trimChars ((k ++ "=" ++ v).toList) = (k ++ "=" ++ v).toList := by
    have h2 := congrArg String.toList ht
    rw [strTrim, toList_mk] at h2
    exact h2
  rw [parse_key_value, splitOnChar_no_sep '\n' _ hnl]
  rw [List.foldl_cons, List.foldl_nil]
  rw [htrim]
  simp only [hlist, splitFirst_app v.toList k.toList hk, strMk_toList]
  have hcont : ((k.toList ++ '=' :: v.toList).contains '=') = true := by
    simp
  simp only [hcont, if_true, reduceIte]
  cases hp : pyIntOfString v with
  | some n => simp [hp, dinsert, dictFind]
  | none => simp [hp, dinsert, dictFind]

/-- Witness for the amended C1 on the line `key=-42`. -/
theorem parse_single_line_witness :
    dictFind (parse_key_value ("key" ++ "=" ++ "-42")) "key" =
      some (match pyIntOfString "-42" with
            | some n => Value.int n
            | none => Value.str "-42") ∧
    (specIntRe "-42" = true → ∃ n, pyIntOfString "-42" = some n) :=
  parse_single_line "key" "-42" (by decide) (by decide) (by decide) (by decide)

end ClaimC1

section ExceptLemmas

theorem exceptOk_ok {ε α : Type} (x : α) :
    exceptOk (Except.ok x : Except ε α) = true := rfl

theorem exceptOk_error {ε α : Type} (e : ε) :
    exceptOk (Except.error e : Except ε α) = false := rfl

theorem except_ok_of_bind {ε α β : Type} {m : Except ε α}
    {g : α → Except ε β} {x : β} (h : m >>= g = Except.ok x) :
    ∃ a, m = Except.ok a ∧ g a = Except.ok x := by
  cases m with
  | ok a =>
    rw [ok_bind] at h
    exact ⟨a, rfl, h⟩
  | error e =>
    rw [error_bind] at h
    exact absurd h (by simp)

end ExceptLemmas

section ClaimC3

/-- C3 counterexample: a malformed `cpu_count` (`"abc"`) aborts the whole
CPU aggregation with a `ValueError` even though a well-formed `cpu_info`
blob was available, so no record with the other fields is returned. -/
theorem get_cpu_info_abort_counterexample :
    badCpuStore "cpu_info" = some "flags=sse" ∧
    get_cpu_info badCpuStore = Except.error PyErr.valueError :=
  ⟨rfl, rfl⟩

theorem cpuInfoOf_ok (a b c d : Option String) :
    exceptOk (cpuInfoOf a b c d) = (optIntOk a && optIntOk b) := by
  cases a with
  | none =>
    cases b with
    | none =>
      simp [cpuInfoOf, intField, optIntOk, pure_def, ok_bind, exceptOk_ok]
    | some sb =>
      cases hpb : pyIntOfString sb with
      | some nb =>
        simp [cpuInfoOf, intField, optIntOk, pyIntE, hpb, map_ok, ok_bind, pure_def,
          exceptOk_ok]
      | none =>
        simp [cpuInfoOf, intField, optIntOk, pyIntE, hpb, map_error, error_bind,
          ok_bind, pure_def, exceptOk_error]
  | some sa =>
    cases hpa : pyIntOfString sa with
    | none =>
      simp [cpuInfoOf, intField, optIntOk, pyIntE, hpa, map_error, error_bind,
        exceptOk_error]
    | some na =>
      cases b with
      | none =>
        simp [cpuInfoOf, intField, optIntOk, pyIntE, hpa, map_ok, ok_bind, pure_def,
          exceptOk_ok]
      | some sb =>
        cases hpb : pyIntOfString sb with
        | some nb =>
          simp [cpuInfoOf, intField, optIntOk, pyIntE, hpa, hpb, map_ok, ok_bind,
            pure_def, exceptOk_ok]
        | none =>
          simp [cpuInfoOf, intField, optIntOk, pyIntE, hpa, hpb, map_ok, map_error,
            error_bind, ok_bind, pure_def, exceptOk_error]

theorem memInfoOf_ok (a b : Option String) :
    exceptOk (memInfoOf a b) = optIntOk a := by
  cases a with
  | none => simp [memInfoOf, optIntOk, pure_def, ok_bind, exceptOk_ok]
  | some sa =>
    cases hpa : pyIntOfString sa with
    | some na =>
      simp [memInfoOf, optIntOk, pyIntE, hpa, map_ok, ok_bind, pure_def,
        exceptOk_ok]
    | none =>
      simp [memInfoOf, optIntOk, pyIntE, hpa, map_error, error_bind,
        exceptOk_error]

/-- C3 amended: failures of key=value blob entries are local — a
malformed entry is kept as a string and the aggregation continues, so the
blob and topology attributes can never abort a CPU or memory
aggregation — but a malformed scalar count attribute (`cpu_count`,
`cpu_total`, `mem_total_bytes`) raises a conversion error that aborts the
whole in-progress aggregation: the aggregation succeeds exactly when
every present scalar attribute converts cleanly. -/
theorem aggregation_abort_iff (store : Store) :
    (exceptOk (get_cpu_info store) =
      (scalarOk store "cpu_count" && scalarOk store "cpu_total")) ∧
    (exceptOk (get_memory_info store) = scalarOk store "mem_total_bytes") := by
  constructor
  · rw [get_cpu_info, scalarOk, scalarOk]
    exact cpuInfoOf_ok _ _ _ _
  · rw [get_memory_info, scalarOk]
    exact memInfoOf_ok _ _

end ClaimC3

section ClaimC7

theorem cpuInfoOf_find (a b c d : Option String) (dct : Dict)
    (hok : cpuInfoOf a b c d = Except.ok dct) :
    (∀ s k v, c = some s → k ≠ "topology" →
      dictFind (parse_key_value s) k = some v → dictFind dct k = some v) ∧
    (∀ t, d = some t → dictFind dct "topology" = some (Value.str t)) := by
  rw [cpuInfoOf.eq_def] at hok
  obtain ⟨i1, h1, h2⟩ := except_ok_of_bind hok
  obtain ⟨i2, h3, h4⟩ := except_ok_of_bind h2
  rw [pure_def] at h4
  injection h4 with h5
  constructor
  · intro s k v hc hk hfind
    subst hc
    rw [← h5]
    cases d with
    | none =>
      show dictFind (dupdate i2 (parse_key_value s)) k = some v
      exact dictFind_dupdate_of_mem (parse_key_value s) i2 k v
        (keysNodup_parse s) hfind
    | some t =>
      show dictFind
        (dinsert (dupdate i2 (parse_key_value s)) "topology" (Value.str t)) k =
          some v
      rw [dictFind_dinsert_ne _ _ _ _ hk]
      exact dictFind_dupdate_of_mem (parse_key_value s) i2 k v
        (keysNodup_parse s) hfind
  · intro t hdt
    subst hdt
    rw [← h5]
    cases c with
    | none =>
      show dictFind (dinsert i2 "topology" (Value.str t)) "topology" =
        some (Value.str t)
      exact dictFind_dinsert_self _ _ _
    | some s =>
      show dictFind
        (dinsert (dupdate i2 (parse_key_value s)) "topology" (Value.str t))
          "topology" = some (Value.str t)
      exact dictFind_dinsert_self _ _ _

theorem gpuInfoOf_find (c e : Option String) (g : Dict)
    (hok : gpuInfoOf c e = Except.ok g) :
    ∀ t, e = some t → dictFind g "details" = some (Value.str t) := by
  intro t hdt
  subst hdt
  rw [gpuInfoOf.eq_def, pure_def] at hok
  injection hok with h5
  rw [← h5]
  exact dictFind_dinsert_self _ _ _

/-- C7: later-merged sources override earlier keys — any key of the
parsed `cpu_info` blob (in particular `online`/`total`) overrides the
fields derived from the scalar reads; the `topology` field set from
`cpu_topology` overrides any `topology` key of the blob; and the
`details` field set from `gpu_details` overrides any `details` key of the
parsed `gpu_info` blob. -/
theorem merge_override (store : Store) :
    (∀ dct s k v, get_cpu_info store = Except.ok dct →
      truthy (readAttrPure store "cpu_info") = some s → k ≠ "topology" →
      dictFind (parse_key_value s) k = some v → dictFind dct k = some v) ∧
    (∀ dct t, get_cpu_info store = Except.ok dct →
      truthy (readAttrPure store "cpu_topology") = some t →
      dictFind dct "topology" = some (Value.str t)) ∧
    (∀ g t, get_gpu_info store = Except.ok g →
      truthy (readAttrPure store "gpu_details") = some t →
      dictFind g "details" = some (Value.str t)) := by
  refine ⟨fun dct s k v hok hread hk hfind => ?_,
    fun dct t hok hread => ?_, fun g t hok hread => ?_⟩
  · rw [get_cpu_info] at hok
    exact (cpuInfoOf_find _ _ _ _ dct hok).1 s k v hread hk hfind
  · rw [get_cpu_info] at hok
    exact (cpuInfoOf_find _ _ _ _ dct hok).2 t hread
  · rw [get_gpu_info] at hok
    exact gpuInfoOf_find _ _ g hok t hread

/-- Witness for C7 at `mergeStore`: the blob's `online=8` overrides the
scalar-derived `online=2`, `topology` comes from `cpu_topology`, and the
GPU `details` comes from `gpu_details` despite `details=x` in the blob. -/
theorem merge_override_witness :
    dictFind mergeCpuDict "online" = some (Value.int 8) ∧
    dictFind mergeCpuDict "topology" = some (Value.str "topo") ∧
    dictFind mergeGpuDict "details" = some (Value.str "D") :=
  ⟨(merge_override mergeStore).1 mergeCpuDict "online=8\ntotal=16" "online"
      (Value.int 8) rfl rfl (by decide) (by decide),
   (merge_override mergeStore).2.1 mergeCpuDict "topo" rfl rfl,
   (merge_override mergeStore).2.2 mergeGpuDict "D" rfl rfl⟩

end ClaimC7

end NeuroShell
